import Mathlib

/-!
Verification of the moko-cli interactive TUI engine against its
specification.

This file shallowly embeds the parts of the Go source that the verified
properties talk about:

* the domain entities (`Location`, `Departure`, `Stop`, `Journey`) from
  `internal/models`,
* the decoding steps that compute delays and effective times
  (`toDeparture` from `internal/models/departure.go`, `toStop` from
  `internal/models/journey.go`),
* the current-stop computation `FindCurrentStopIndex` from the output
  package,
* the TUI `Model` and its message handlers `handleSearchResult`,
  `handleDeparturesResult`, `handleJourneyResult` from
  `internal/tui/update.go`, plus `rebuildDestinationList` from the
  destinations file of the TUI package,
* the client-side phase of `SearchLocations` from the API client,
* `visibleRange` from `internal/tui/view.go`.

Conventions:

* `time.Time` instants are embedded as `Int` numbers of seconds.  All
  decoded instants in the program come from `parseTime` with layout
  `"2006-01-02T15:04:05"`, so they are whole seconds; at this
  granularity the Go expression `int(d.Minutes())` (float64 conversion,
  truncation toward zero) agrees exactly with the truncated integer
  division of seconds by 60, which is how it is embedded below
  (`goMinutes`).
* Go `nil` errors are embedded as `none : Option String`; a non-nil
  error is `some msg`.
* Go slices are embedded as lists; a `nil` slice is `[]`.
* Struct fields that none of the embedded operations read (coordinates,
  product lists, display texts, and similar) are omitted from the
  records; every field an embedded function reads or writes is present.
-/

namespace Moko

/-- A station, from `internal/models` (`Location`).  Fields not read by
the embedded operations (coordinates, type, products) are omitted. -/
structure Location where
  eva : Int
  id : String
  name : String
deriving DecidableEq, Repr

/-- A board entry, from `internal/models/departure.go` (`Departure`). -/
structure Departure where
  journeyID : String
  line : String
  destination : String
  platform : String
  rtPlatform : String
  via : List String
  schedDep : Option Int
  rtDep : Option Int
  dep : Option Int
  delay : Int
  isCancelled : Bool
deriving DecidableEq, Repr

/-- One call of a journey, from `internal/models/journey.go` (`Stop`). -/
structure Stop where
  eva : Int
  name : String
  platform : String
  rtPlatform : String
  schedArr : Option Int
  rtArr : Option Int
  arr : Option Int
  schedDep : Option Int
  rtDep : Option Int
  dep : Option Int
  arrDelay : Int
  depDelay : Int
  delay : Int
  isCancelled : Bool
deriving DecidableEq, Repr

/-- A trip, from `internal/models/journey.go` (`Journey`). -/
structure Journey where
  id : String
  name : String
  stops : List Stop
deriving DecidableEq, Repr

/-- The Go expression `int(d.Minutes())` for a whole-second duration `d`
(given in seconds): minutes truncated toward zero. -/
def goMinutes (seconds : Int) : Int :=
  Int.tdiv seconds 60

/-- The pure core of `DepartureResponse` (`internal/models/departure.go`)
after the time strings have been parsed: `zeit`/`ezZeit` hold the parsed
instants (in seconds), `none` when the string was empty or unparseable.
`meldungen` holds pairs of message type and text. -/
structure DepartureResponseParsed where
  journeyID : String
  terminus : String
  gleis : String
  ezGleis : String
  zeit : Option Int
  ezZeit : Option Int
  ueber : List String
  mittelText : String
  meldungen : List (String × String)
deriving DecidableEq, Repr

/-- `ToDeparture` from `internal/models/departure.go`, starting from the
parsed times.  Mirrors the source order: copy fields, drop the first via
entry, set effective departure, compute the delay when both times are
present, and scan messages for cancellations. -/
def toDeparture (r : DepartureResponseParsed) : Departure :=
  let via := if r.ueber.length > 1 then r.ueber.drop 1 else []
  let schedDep := r.zeit
  let rtDep := r.ezZeit
  let dep := match rtDep with
    | some t => some t
    | none => schedDep
  let delay := match schedDep, rtDep with
    | some s, some t => goMinutes (t - s)
    | _, _ => 0
  let isCancelled := r.meldungen.any (fun msg => msg.1 = "HALT_AUSFALL")
  { journeyID := r.journeyID
    line := r.mittelText
    destination := r.terminus
    platform := r.gleis
    rtPlatform := r.ezGleis
    via := via
    schedDep := schedDep
    rtDep := rtDep
    dep := dep
    delay := delay
    isCancelled := isCancelled }

/-- One raw `halte` entry of a `JourneyResponse`
(`internal/models/journey.go`) after its four time strings have been
parsed. -/
structure HaltParsed where
  name : String
  evaNumber : Int
  gleis : String
  ezGleis : String
  abfahrtsZeitpunkt : Option Int
  ezAbfahrtsZeitpunkt : Option Int
  ankunftsZeitpunkt : Option Int
  ezAnkunftsZeitpunkt : Option Int
  canceled : Bool
deriving DecidableEq, Repr

/-- The per-stop body of `ToJourney` (`internal/models/journey.go`):
times, effective times, the three delay fields, and the effective
platform fallback. -/
def toStop (h : HaltParsed) : Stop :=
  let schedDep := h.abfahrtsZeitpunkt
  let rtDep := h.ezAbfahrtsZeitpunkt
  let schedArr := h.ankunftsZeitpunkt
  let rtArr := h.ezAnkunftsZeitpunkt
  let dep := match rtDep with
    | some t => some t
    | none => schedDep
  let arr := match rtArr with
    | some t => some t
    | none => schedArr
  let depDelay := match schedDep, rtDep with
    | some s, some t => goMinutes (t - s)
    | _, _ => 0
  let arrDelay := match schedArr, rtArr with
    | some s, some t => goMinutes (t - s)
    | _, _ => 0
  let delay := if arrDelay = 0 then depDelay else arrDelay
  let rtPlatform := if h.ezGleis = "" then h.gleis else h.ezGleis
  { eva := h.evaNumber
    name := h.name
    platform := h.gleis
    rtPlatform := rtPlatform
    schedArr := schedArr
    rtArr := rtArr
    arr := arr
    schedDep := schedDep
    rtDep := rtDep
    dep := dep
    arrDelay := arrDelay
    depDelay := depDelay
    delay := delay
    isCancelled := h.canceled }

/-- The loop condition `stops[i].Arr != nil && !now.Before(*stops[i].Arr)`
of `FindCurrentStopIndex`. -/
def arrAtOrBefore (s : Stop) (t : Int) : Bool :=
  match s.arr with
  | some a => a ≤ t
  | none => false

/-- Pass 1 of `FindCurrentStopIndex` (output package): the Go loop
`for i := len(stops)-1; i >= 0; i--` that breaks with `stops[i].Delay` at
the first (highest) index whose arrival is at or before `now`, and falls
through with `0`.  The fuel argument is the loop bound `i+1`; the
out-of-range guard mirrors the bounds check in the source. -/
def loopDelay (stops : List Stop) (now : Int) : Nat → Int
  | 0 => 0
  | i + 1 =>
    match stops[i]? with
    | some s => if arrAtOrBefore s now then s.delay else loopDelay stops now i
    | none => loopDelay stops now i

/-- Pass 2 of `FindCurrentStopIndex`: the second backwards loop that
returns the first (highest) index whose arrival is at or before the
virtual time, and falls through with `0`. -/
def loopIdx (stops : List Stop) (t : Int) : Nat → Int
  | 0 => 0
  | i + 1 =>
    match stops[i]? with
    | some s => if arrAtOrBefore s t then (i : Int) else loopIdx stops t i
    | none => loopIdx stops t i

/-- `FindCurrentStopIndex` from the output package: two backwards passes;
the delay found by pass 1 shifts `now` back by that many minutes before
pass 2. -/
def FindCurrentStopIndex (stops : List Stop) (now : Int) : Int :=
  if stops.length = 0 then -1
  else
    let delay := loopDelay stops now stops.length
    let virtualNow := now - delay * 60
    loopIdx stops virtualNow stops.length

/-- The scan condition at index `i` of either pass: the stop exists and
its arrival is at or before `t`. -/
def passPred (stops : List Stop) (t : Int) (i : Nat) : Bool :=
  match stops[i]? with
  | some s => arrAtOrBefore s t
  | none => false

/-- The index of the last stop whose *effective* arrival (`Arr`,
realtime when present) is at or before `t`, if any — the scan the code
actually performs. -/
def effLastIdxAtOrBefore (stops : List Stop) (t : Int) : Option Nat :=
  (List.range stops.length).reverse.find? (passPred stops t)

/-- Backwards-scan structure of `FindCurrentStopIndex`, phrased over the
last-index scans on the *effective* arrival: record the delay `d` of the
last stop whose effective arrival is ≤ `now` (`0` if none), form the
virtual time `now − d` minutes, and return the index of the last stop
whose effective arrival is ≤ the virtual time (`0` if none).  This is
the algorithm the code implements; the specification's words instead
prescribe the *scheduled* arrival, see `specSchedCurrentStopIndex`. -/
def effCurrentStopIndex (stops : List Stop) (now : Int) : Int :=
  let d : Int :=
    match effLastIdxAtOrBefore stops now with
    | some i => (stops[i]?.map Stop.delay).getD 0
    | none => 0
  let virtualNow := now - d * 60
  match effLastIdxAtOrBefore stops virtualNow with
  | some i => (i : Int)
  | none => 0

/-- The scan condition the specification's words prescribe: the stop's
*scheduled* arrival is at or before `t`. -/
def schedAtOrBefore (s : Stop) (t : Int) : Bool :=
  match s.schedArr with
  | some a => a ≤ t
  | none => false

/-- The scheduled-arrival scan condition at index `i`. -/
def schedPassPred (stops : List Stop) (t : Int) (i : Nat) : Bool :=
  match stops[i]? with
  | some s => schedAtOrBefore s t
  | none => false

/-- Modelled from the spec: the index of the last stop whose *scheduled*
arrival is at or before `t`, if any ("scan backwards; the last stop
whose scheduled arrival is ≤ now"). -/
def specSchedLastIdxAtOrBefore (stops : List Stop) (t : Int) : Option Nat :=
  (List.range stops.length).reverse.find? (schedPassPred stops t)

/-- Modelled from the spec: the two-pass delay-aware current-stop
computation on *scheduled* arrivals — record the delay `d` of the last
stop whose scheduled arrival is ≤ `now` (`0` if none), form the virtual
time `now − d` minutes, and return the index of the last stop whose
scheduled arrival is ≤ the virtual time (`0` if none). -/
def specSchedCurrentStopIndex (stops : List Stop) (now : Int) : Int :=
  let d : Int :=
    match specSchedLastIdxAtOrBefore stops now with
    | some i => (stops[i]?.map Stop.delay).getD 0
    | none => 0
  let virtualNow := now - d * 60
  match specSchedLastIdxAtOrBefore stops virtualNow with
  | some i => (i : Int)
  | none => 0

/-- The focus panel enumeration from `internal/tui/model.go`. -/
inductive Focus where
  | search
  | filters
  | board
  | autoRefresh
  | stations
  | departures
  | destinations
  | journey
deriving DecidableEq, Repr

/-- The board-mode enumeration from `internal/tui/model.go`. -/
inductive BoardMode where
  | departure
  | arrival
deriving DecidableEq, Repr

/-- The state of the bubbles text-input widget that the handlers touch:
its value and whether it is focused (`Focus`/`Blur`). -/
structure TextInput where
  value : String
  focused : Bool
deriving DecidableEq, Repr

/-- The root TUI model from `internal/tui/model.go`.  The `client`
pointer is omitted (it is threaded unchanged into the emitted commands);
`lastUpdate` is an instant in seconds, `0` for the zero `time.Time`. -/
structure Model where
  width : Int
  height : Int
  searchInput : TextInput
  focus : Focus
  modeFilters : List Bool
  filterCursor : Int
  boardMode : BoardMode
  boardCursor : Int
  autoRefresh : Bool
  lastUpdate : Int
  stations : List Location
  stationCursor : Int
  stationsLoading : Bool
  stationsErr : Option String
  searchSeq : Int
  selectedStation : Option Location
  departures : List Departure
  departureCursor : Int
  departuresLoading : Bool
  departuresErr : Option String
  destinationList : List String
  destinationFilters : List Bool
  destinationCursor : Int
  selectedJourneyID : String
  journey : Option Journey
  journeyLoading : Bool
  journeyErr : Option String
  showJourney : Bool
  journeyScroll : Int
  journeyManualScroll : Bool
deriving DecidableEq, Repr

/-- `searchResultMsg` from `internal/tui/messages.go`. -/
structure SearchResultMsg where
  seq : Int
  locations : List Location
  err : Option String
deriving DecidableEq, Repr

/-- `departuresResultMsg` from `internal/tui/messages.go`. -/
structure DeparturesResultMsg where
  stationEVA : Int
  departures : List Departure
  err : Option String
deriving DecidableEq, Repr

/-- `journeyResultMsg` from `internal/tui/messages.go`. -/
structure JourneyResultMsg where
  journeyID : String
  journey : Option Journey
  err : Option String
deriving DecidableEq, Repr

/-- The commands the embedded result handlers can emit
(`internal/tui/commands.go`). -/
inductive Cmd where
  | fetchBoard (station : Location) (modes : List String) (mode : BoardMode)
  | fetchJourney (journeyID : String)
deriving DecidableEq, Repr

/-- The `apiName` column of `modeLabels` in `internal/tui/model.go`. -/
def modeAPINames : List String :=
  ["ICE", "EC_IC", "IR", "REGIONAL", "SBAHN", "BUS", "SCHIFF", "UBAHN", "TRAM",
    "ANRUFPFLICHTIG"]

/-- `selectedModes` from `internal/tui/model.go`: the API names of the
active filters.  The Go loop indexes `modeLabels[i]` for each filter
index, which is total because the model always carries exactly ten
filters; the zip below matches it on such models. -/
def selectedModes (m : Model) : List String :=
  ((m.modeFilters.zip modeAPINames).filter fun p => p.1).map fun p => p.2

/-- The initial model built by `New` in `internal/tui/model.go`: focus on
search, text input focused, all ten mode filters on, everything else at
its zero value. -/
def initialModel : Model where
  width := 0
  height := 0
  searchInput := { value := "", focused := true }
  focus := Focus.search
  modeFilters := List.replicate 10 true
  filterCursor := 0
  boardMode := BoardMode.departure
  boardCursor := 0
  autoRefresh := false
  lastUpdate := 0
  stations := []
  stationCursor := 0
  stationsLoading := false
  stationsErr := none
  searchSeq := 0
  selectedStation := none
  departures := []
  departureCursor := 0
  departuresLoading := false
  departuresErr := none
  destinationList := []
  destinationFilters := []
  destinationCursor := 0
  selectedJourneyID := ""
  journey := none
  journeyLoading := false
  journeyErr := none
  showJourney := false
  journeyScroll := 0
  journeyManualScroll := false

/-- `handleSearchResult` from `internal/tui/update.go`: drop stale
results by sequence number, clear loading state, store the error, and on
success install the stations, auto-select the first one and emit a board
fetch for it. -/
def handleSearchResult (m : Model) (msg : SearchResultMsg) :
    Model × Option Cmd :=
  if msg.seq ≠ m.searchSeq then (m, none)
  else
    let m1 := { m with stationsLoading := false, stationsErr := msg.err }
    if msg.err ≠ none then (m1, none)
    else
      let m2 := { m1 with stations := msg.locations, stationCursor := 0 }
      match m2.stations with
      | [] => (m2, none)
      | station :: _ =>
        let m3 := { m2 with
          focus := Focus.stations
          searchInput := { m2.searchInput with focused := false }
          selectedStation := some station
          departuresLoading := true
          departuresErr := none
          departures := []
          departureCursor := 0
          showJourney := false }
        (m3, some (Cmd.fetchBoard station (selectedModes m3) m3.boardMode))

/-- The cursor-relocation loop of `handleDeparturesResult`: the index of
the first departure with the given journey id, if any. -/
def findJourneyIdx (id : String) : List Departure → Option Nat
  | [] => none
  | d :: rest =>
    if d.journeyID = id then some 0
    else (findJourneyIdx id rest).map (· + 1)

/-- `handleDeparturesResult` from `internal/tui/update.go`: drop results
for a station other than the selected one, clear loading state, store
the error, and on success install the departures, relocate or close the
selected journey, clamp the cursor when the list shrank, and stamp
`lastUpdate` with the current time (`now`). -/
def handleDeparturesResult (m : Model) (msg : DeparturesResultMsg)
    (now : Int) : Model × Option Cmd :=
  match m.selectedStation with
  | none => (m, none)
  | some st =>
    if msg.stationEVA ≠ st.eva then (m, none)
    else
      let m1 := { m with departuresLoading := false, departuresErr := msg.err }
      if msg.err = none then
        let hadData := 0 < m1.departures.length
        let m2 := { m1 with departures := msg.departures }
        let m3 :=
          if hadData ∧ m2.selectedJourneyID ≠ "" then
            match findJourneyIdx m2.selectedJourneyID m2.departures with
            | some i => { m2 with departureCursor := (i : Int) }
            | none =>
              { m2 with
                showJourney := false
                journey := none
                selectedJourneyID := "" }
          else if ¬hadData then { m2 with departureCursor := 0 }
          else m2
        let m4 :=
          if m3.departureCursor ≥ (m3.departures.length : Int) ∧
              0 < m3.departures.length then
            { m3 with departureCursor := (m3.departures.length : Int) - 1 }
          else m3
        ({ m4 with lastUpdate := now }, none)
      else (m1, none)

/-- The stop list of an optional journey.  `handleJourneyResult` in the
source dereferences `m.journey.Stops`; a `nil` journey with a `nil`
error would panic there and never occurs (the fetch command produces a
journey exactly when the error is `nil`), so the `none` case is mapped
to the empty list. -/
def stopsOf : Option Journey → List Stop
  | some j => j.stops
  | none => []

/-- `handleJourneyResult` from `internal/tui/update.go`: clear loading
state, store the error, and on success install the journey, show the
panel, clamp the scroll position, and either keep a manual scroll or
auto-scroll to the current stop at time `now`. -/
def handleJourneyResult (m : Model) (msg : JourneyResultMsg) (now : Int) :
    Model × Option Cmd :=
  let m1 := { m with journeyLoading := false, journeyErr := msg.err }
  if msg.err = none then
    let wasShowing : Bool := m1.showJourney && m1.journey.isSome
    let m2 := { m1 with journey := msg.journey, showJourney := true }
    let m3 :=
      if m2.journey ≠ none ∧ 0 < (stopsOf m2.journey).length then
        let s1 :=
          if m2.journeyScroll ≥ ((stopsOf m2.journey).length : Int) then
            ((stopsOf m2.journey).length : Int) - 1
          else m2.journeyScroll
        let s2 := if s1 < 0 then 0 else s1
        { m2 with journeyScroll := s2 }
      else m2
    if wasShowing && m3.journeyManualScroll then (m3, none)
    else
      let currentIdx := FindCurrentStopIndex (stopsOf m3.journey) now
      ({ m3 with
          journeyManualScroll := false
          journeyScroll := if currentIdx ≥ 0 then currentIdx else 0 }, none)
  else (m1, none)

/-- The destination-extraction loop of `rebuildDestinationList`
(destinations file of the TUI package): unique non-empty destinations in
first-appearance order. -/
def uniqueDestinations (deps : List Departure) : List String :=
  deps.foldl
    (fun acc d =>
      if d.destination ≠ "" ∧ d.destination ∉ acc then acc ++ [d.destination]
      else acc)
    []

/-- `rebuildDestinationList` from the destinations file of the TUI
package: sorted unique non-empty destinations, filter states carried
over by name (default on), cursor clamped. -/
def rebuildDestinationList (m : Model) : Model :=
  let newList := (uniqueDestinations m.departures).insertionSort (· ≤ ·)
  let prev := m.destinationList.zip m.destinationFilters
  let newFilters := newList.map fun dest =>
    match prev.find? (fun p => p.1 = dest) with
    | some p => p.2
    | none => true
  let cursor :=
    if newList.length = 0 then 0
    else if m.destinationCursor ≥ (newList.length : Int) then
      (newList.length : Int) - 1
    else m.destinationCursor
  { m with
    destinationList := newList
    destinationFilters := newFilters
    destinationCursor := cursor }

/-- The query parameters `SearchLocationsRaw` (API client) builds for the
locations endpoint. -/
structure LocationsRequest where
  suchbegriff : String
  typ : String
  limit : String
deriving DecidableEq, Repr

/-- The client-side outcome of starting a `SearchLocations` call: either
the request that is handed to `doRequest`, or a client-side
invalid-request failure made without building a request. -/
inductive ClientStep where
  | sendRequest (req : LocationsRequest)
  | failInvalidRequest
deriving DecidableEq, Repr

/-- The client-side phase of `SearchLocations` /`SearchLocationsRaw`
(API client): the query parameters are built and `doRequest` is invoked
unconditionally; no validation of the query string is performed. -/
def searchLocationsClientStep (query : String) : ClientStep :=
  ClientStep.sendRequest { suchbegriff := query, typ := "ALL", limit := "10" }

/-- `visibleRange` from `internal/tui/view.go`.  `Int.tdiv` is Go's
truncating integer division. -/
def visibleRange (cursor total maxVisible : Int) : Int × Int :=
  if total ≤ maxVisible then (0, total)
  else
    let start0 := cursor - Int.tdiv maxVisible 2
    let start1 := if start0 < 0 then 0 else start0
    let e0 := start1 + maxVisible
    if e0 > total then
      let e1 := total
      let start2 := e1 - maxVisible
      let start3 := if start2 < 0 then 0 else start2
      (start3, e1)
    else (start1, e0)

/-! Concrete inputs used by the counterexamples and witnesses. -/

/-- A station with EVA 1. -/
def stA : Location := { eva := 1, id := "", name := "A" }

/-- A departure towards destination `"X"` on journey `"j1"`. -/
def depX : Departure :=
  { journeyID := "j1", line := "", destination := "X", platform := ""
    rtPlatform := "", via := [], schedDep := none, rtDep := none, dep := none
    delay := 0, isCancelled := false }

/-- The initial model with station `stA` selected. -/
def mBoard : Model := { initialModel with selectedStation := some stA }

/-- A successful board result for station EVA 1 with the single
departure `depX`. -/
def msgBoardX : DeparturesResultMsg :=
  { stationEVA := 1, departures := [depX], err := none }

/-- A journey stop whose scheduled and effective arrivals are both `a`
(seconds) with combined delay `d` minutes — the shape a decoded stop
takes when it has no realtime arrival and its delay comes from the
departure side. -/
def mkStop (a d : Int) : Stop :=
  { eva := 0, name := "", platform := "", rtPlatform := ""
    schedArr := some a, rtArr := none, arr := some a, schedDep := none
    rtDep := none, dep := none, arrDelay := 0, depDelay := d, delay := d
    isCancelled := false }

/-- The specification's delay-aware example: stops at 18:30, at 18:55
with delay 6, and at 19:10 with delay 6 (seconds of day), carrying no
realtime arrivals. -/
def c6stops : List Stop :=
  [mkStop (1110 * 60) 0, mkStop (1135 * 60) 6, mkStop (1150 * 60) 6]

/-- A decoded first stop arriving 18:00, no realtime data. -/
def haltH0 : HaltParsed :=
  { name := "S0", evaNumber := 0, gleis := "", ezGleis := ""
    abfahrtsZeitpunkt := none, ezAbfahrtsZeitpunkt := none
    ankunftsZeitpunkt := some (1080 * 60), ezAnkunftsZeitpunkt := none
    canceled := false }

/-- A decoded stop scheduled 18:55 whose realtime arrival is 19:05
(ten minutes late). -/
def haltH1 : HaltParsed :=
  { name := "S1", evaNumber := 0, gleis := "", ezGleis := ""
    abfahrtsZeitpunkt := none, ezAbfahrtsZeitpunkt := none
    ankunftsZeitpunkt := some (1135 * 60)
    ezAnkunftsZeitpunkt := some (1145 * 60), canceled := false }

/-- A two-stop decoded journey whose second stop runs ten minutes late,
carrying a realtime arrival. -/
def c6DelayedStops : List Stop := [toStop haltH0, toStop haltH1]

/-- A raw departure whose realtime time is 90 seconds after the
scheduled one. -/
def r90 : DepartureResponseParsed :=
  { journeyID := "j", terminus := "X", gleis := "", ezGleis := ""
    zeit := some 0, ezZeit := some 90, ueber := [], mittelText := ""
    meldungen := [] }

/-! ### C2 — destination panel rebuild after a board result -/

/-- C2: after an accepted successful `BoardResult` the specification
requires `destinationList` to equal the sorted unique destinations of
the new departures with `destinationFilters` of matching length, but
`handleDeparturesResult` never invokes `rebuildDestinationList`: applied
to the initial model with station EVA 1 selected and a board carrying
one departure towards `"X"`, it installs the departures yet leaves
`destinationList` and `destinationFilters` empty, while the repository's
own (never-called) `rebuildDestinationList` on the very same resulting
model would produce `["X"]` with one filter. -/
theorem c2_destination_rebuild_missing :
    (handleDeparturesResult mBoard msgBoardX 5).1.departures = [depX] ∧
    (handleDeparturesResult mBoard msgBoardX 5).1.destinationList = [] ∧
    (handleDeparturesResult mBoard msgBoardX 5).1.destinationFilters = [] ∧
    (rebuildDestinationList
        (handleDeparturesResult mBoard msgBoardX 5).1).destinationList =
      ["X"] ∧
    (rebuildDestinationList
        (handleDeparturesResult mBoard msgBoardX 5).1).destinationFilters =
      [true] := by
  decide

/-! ### C6 — two-pass delay-aware current stop -/

theorem spec_find_succ (stops : List Stop) (t : Int) (n : Nat) :
    (List.range (n + 1)).reverse.find? (passPred stops t) =
      if passPred stops t n then some n
      else (List.range n).reverse.find? (passPred stops t) := by
  rw [List.range_succ, List.reverse_append]
  cases h : passPred stops t n <;> simp [List.find?, h]

theorem loopIdx_eq_spec (stops : List Stop) (t : Int) (n : Nat) :
    loopIdx stops t n =
      match (List.range n).reverse.find? (passPred stops t) with
      | some i => (i : Int)
      | none => 0 := by
  induction n with
  | zero => simp [loopIdx]
  | succ k ih =>
    rw [spec_find_succ]
    cases h : stops[k]? with
    | none =>
      have hp : passPred stops t k = false := by simp [passPred, h]
      rw [hp]
      simpa [loopIdx, h] using ih
    | some s =>
      have hp : passPred stops t k = arrAtOrBefore s t := by
        simp [passPred, h]
      rw [hp]
      by_cases hc : arrAtOrBefore s t = true
      · rw [if_pos hc]
        simp [loopIdx, h, hc]
      · rw [if_neg hc]
        have hc' : arrAtOrBefore s t = false := by
          cases hb : arrAtOrBefore s t
          · rfl
          · exact absurd hb hc
        simpa [loopIdx, h, hc'] using ih

theorem loopDelay_eq_spec (stops : List Stop) (now : Int) (n : Nat) :
    loopDelay stops now n =
      match (List.range n).reverse.find? (passPred stops now) with
      | some i => (stops[i]?.map Stop.delay).getD 0
      | none => 0 := by
  induction n with
  | zero => simp [loopDelay]
  | succ k ih =>
    rw [spec_find_succ]
    cases h : stops[k]? with
    | none =>
      have hp : passPred stops now k = false := by simp [passPred, h]
      rw [hp]
      simpa [loopDelay, h] using ih
    | some s =>
      have hp : passPred stops now k = arrAtOrBefore s now := by
        simp [passPred, h]
      rw [hp]
      by_cases hc : arrAtOrBefore s now = true
      · rw [if_pos hc]
        simp [loopDelay, h, hc]
      · rw [if_neg hc]
        have hc' : arrAtOrBefore s now = false := by
          cases hb : arrAtOrBefore s now
          · rfl
          · exact absurd hb hc
        simpa [loopDelay, h, hc'] using ih

/-- On every non-empty stop list `FindCurrentStopIndex` computes the
two-pass scan over *effective* arrivals. -/
theorem findCurrentStopIndex_eq_eff (stops : List Stop) (now : Int)
    (hne : stops ≠ []) :
    FindCurrentStopIndex stops now = effCurrentStopIndex stops now := by
  have hlen : stops.length ≠ 0 := by simpa using hne
  simp only [FindCurrentStopIndex, effCurrentStopIndex,
    effLastIdxAtOrBefore]
  rw [if_neg hlen, loopDelay_eq_spec, loopIdx_eq_spec]

theorem find?_pointwise_congr {α : Type} (p q : α → Bool) :
    ∀ l : List α, (∀ a ∈ l, p a = q a) → l.find? p = l.find? q := by
  intro l
  induction l with
  | nil => intro _; rfl
  | cons a rest ih =>
    intro h
    have ha := h a (by simp)
    simp only [List.find?, ha]
    cases q a
    · exact ih fun b hb => h b (by simp [hb])
    · rfl

/-- When no stop carries a realtime arrival (`Arr = SchedArr`
throughout), the effective-arrival scan agrees with the specification's
scheduled-arrival scan. -/
theorem passPred_eq_schedPassPred (stops : List Stop) (t : Int)
    (h : ∀ s ∈ stops, s.arr = s.schedArr) (i : Nat) :
    passPred stops t i = schedPassPred stops t i := by
  simp only [passPred, schedPassPred]
  cases hg : stops[i]? with
  | none => rfl
  | some s =>
    have hs : s ∈ stops := List.getElem?_mem hg
    simp only [arrAtOrBefore, schedAtOrBefore, h s hs]

/-- Counterexample for C6: on a decoded journey whose second stop is
scheduled at 18:55 but arrives at 19:05 (delay 10), at 19:06 the claimed
scheduled-arrival two-pass algorithm gives index 1 (d = 10,
now′ = 18:56, scheduled 18:55 ≤ 18:56), but `FindCurrentStopIndex`
compares the *effective* arrival `Arr` (19:05 > 18:56) and returns 0 —
the code does not follow the claim's algorithm. -/
theorem c6_scheduled_counterexample :
    (toStop haltH1).schedArr = some (1135 * 60) ∧
    (toStop haltH1).arr = some (1145 * 60) ∧
    (toStop haltH1).delay = 10 ∧
    specSchedCurrentStopIndex c6DelayedStops (1146 * 60) = 1 ∧
    FindCurrentStopIndex c6DelayedStops (1146 * 60) = 0 ∧
    FindCurrentStopIndex c6DelayedStops (1146 * 60) ≠
      specSchedCurrentStopIndex c6DelayedStops (1146 * 60) := by
  decide

/-- C6 as amended: `FindCurrentStopIndex` performs the two-pass
delay-aware computation, but both backwards scans compare each stop's
*effective* arrival (realtime when present, else scheduled) rather than
the scheduled arrival the specification prescribes; on stop lists
without realtime arrivals (`Arr = SchedArr` throughout) the two
algorithms coincide, and on the specification's example — stops at
18:30, 18:55 (delay 6), 19:10 (delay 6) without realtime arrivals, at
19:01 — the result is index 1. -/
theorem c6_two_pass_effective :
    (∀ (stops : List Stop) (now : Int), stops ≠ [] →
      FindCurrentStopIndex stops now = effCurrentStopIndex stops now) ∧
    (∀ (stops : List Stop) (now : Int), stops ≠ [] →
      (∀ s ∈ stops, s.arr = s.schedArr) →
      FindCurrentStopIndex stops now = specSchedCurrentStopIndex stops now) ∧
    FindCurrentStopIndex c6stops (1141 * 60) = 1 := by
  refine ⟨findCurrentStopIndex_eq_eff, ?_, by decide⟩
  intro stops now hne h
  have key : ∀ t, effLastIdxAtOrBefore stops t =
      specSchedLastIdxAtOrBefore stops t := by
    intro t
    exact find?_pointwise_congr _ _ _
      fun i _ => passPred_eq_schedPassPred stops t h i
  rw [findCurrentStopIndex_eq_eff stops now hne]
  simp only [effCurrentStopIndex, specSchedCurrentStopIndex, key]

/-- Witness for C6 as amended: on the realtime-free example stops the
code agrees with the scheduled-arrival algorithm and both give index 1
at 19:01. -/
theorem c6_two_pass_effective_witness :
    FindCurrentStopIndex c6stops (1141 * 60) =
      specSchedCurrentStopIndex c6stops (1141 * 60) ∧
    specSchedCurrentStopIndex c6stops (1141 * 60) = 1 :=
  ⟨c6_two_pass_effective.2.1 c6stops (1141 * 60) (by decide) (by decide),
    by decide⟩

/-! ### C7 — delay semantics of decoding -/

/-- Rounding to the nearest whole minute (halves up), the plain reading
of the specification's `round_minutes`; written from the
specification's words for comparison with the code. -/
def specRoundMinutes (seconds : Int) : Int :=
  Int.fdiv (seconds + 30) 60

/-- Counterexample for C7: a decoded departure whose realtime is 90
seconds after its schedule gets delay 1 — the minute difference
truncated toward zero — not the rounded value 2 that
`round_minutes(effective − scheduled)` requires. -/
theorem c7_delay_counterexample :
    (toDeparture r90).delay = 1 ∧ specRoundMinutes (90 - 0) = 2 ∧
    (toDeparture r90).delay ≠ specRoundMinutes (90 - 0) := by
  decide

/-- C7 as amended: for every decoded departure the delay is the
realtime-minus-scheduled difference in minutes truncated toward zero
(`int(d.Minutes())` in the source), zero when either time is absent, and
journey stops compute their arrival and departure delays the same way,
combining them as arrival delay unless that is zero. -/
theorem c7_delay_truncated :
    (∀ r : DepartureResponseParsed,
      (toDeparture r).delay =
        match r.zeit, r.ezZeit with
        | some s, some t => Int.tdiv (t - s) 60
        | _, _ => 0) ∧
    (∀ h : HaltParsed,
      (toStop h).depDelay =
        (match h.abfahrtsZeitpunkt, h.ezAbfahrtsZeitpunkt with
        | some s, some t => Int.tdiv (t - s) 60
        | _, _ => 0) ∧
      (toStop h).arrDelay =
        (match h.ankunftsZeitpunkt, h.ezAnkunftsZeitpunkt with
        | some s, some t => Int.tdiv (t - s) 60
        | _, _ => 0) ∧
      (toStop h).delay =
        (if (toStop h).arrDelay = 0 then (toStop h).depDelay
        else (toStop h).arrDelay)) := by
  constructor
  · intro r
    simp only [toDeparture, goMinutes]
  · intro h
    refine ⟨rfl, rfl, ?_⟩
    simp only [toStop, goMinutes]

/-! ### C8 — empty-query handling of SearchLocations -/

/-- Counterexample for C8: `SearchLocations` run with the empty query
does not fail client-side; it proceeds to `doRequest` with
`suchbegriff=""`, `typ=ALL`, `limit=10`. -/
theorem c8_empty_query_counterexample :
    searchLocationsClientStep "" ≠ ClientStep.failInvalidRequest ∧
    searchLocationsClientStep "" =
      ClientStep.sendRequest { suchbegriff := "", typ := "ALL", limit := "10" } := by
  decide

/-- C8 as amended: for every query string, including the empty one,
`SearchLocations` performs no client-side validation and hands
`doRequest` the locations request with `suchbegriff` set to the query
verbatim. -/
theorem c8_no_client_validation :
    ∀ query : String,
      searchLocationsClientStep query =
        ClientStep.sendRequest
          { suchbegriff := query, typ := "ALL", limit := "10" } := by
  intro query
  rfl

/-! ### C9 — visibleRange bounds -/

/-- C9: for all `0 ≤ c < N` and `M ≥ 1`, `visibleRange c N M` yields
`start ≤ c < end ≤ N` with `end − start ≤ M`, where
`start = clamp(c − M/2, 0, max(0, N − M))` and `end = min(N, start + M)`. -/
theorem c9_visible_range :
    ∀ c N M : Int, 0 ≤ c → c < N → 1 ≤ M →
      (visibleRange c N M).1 ≤ c ∧ c < (visibleRange c N M).2 ∧
      (visibleRange c N M).2 ≤ N ∧
      (visibleRange c N M).2 - (visibleRange c N M).1 ≤ M ∧
      (visibleRange c N M).1 =
        min (max (c - Int.tdiv M 2) 0) (max 0 (N - M)) ∧
      (visibleRange c N M).2 = min N ((visibleRange c N M).1 + M) := by
  intro c N M hc hcN hM
  have ht : Int.tdiv M 2 = M / 2 := Int.tdiv_eq_ediv (by omega) (by omega)
  simp only [visibleRange, ht]
  have h2 : 0 ≤ M / 2 := by omega
  have h3 : M / 2 ≤ M := by omega
  split_ifs <;> simp only [Prod.fst, Prod.snd] <;> omega

/-- Witness for C9 at cursor 3, list size 10, capacity 4. -/
theorem c9_visible_range_witness :
    (visibleRange 3 10 4).1 ≤ 3 ∧ (3 : Int) < (visibleRange 3 10 4).2 ∧
    (visibleRange 3 10 4).2 ≤ 10 ∧
    (visibleRange 3 10 4).2 - (visibleRange 3 10 4).1 ≤ 4 ∧
    (visibleRange 3 10 4).1 =
      min (max (3 - Int.tdiv 4 2) 0) (max 0 (10 - 4)) ∧
    (visibleRange 3 10 4).2 = min 10 ((visibleRange 3 10 4).1 + 4) :=
  c9_visible_range 3 10 4 (by decide) (by decide) (by decide)

/-! ### C3 — stale search results -/

/-- C3: a `SearchResult` whose sequence number differs from the model's
current `searchSeq` leaves the model (in particular `stations` and
`stationsLoading`) completely unchanged and emits no command; hence
stations change only when the sequence numbers agree, and any sequence
of stale `SearchResult` messages leaves the model unchanged. -/
theorem c3_stale_search :
    (∀ (m : Model) (msg : SearchResultMsg), msg.seq ≠ m.searchSeq →
      handleSearchResult m msg = (m, none)) ∧
    (∀ (m : Model) (msg : SearchResultMsg),
      (handleSearchResult m msg).1.stations ≠ m.stations →
      msg.seq = m.searchSeq) ∧
    (∀ (m : Model) (msgs : List SearchResultMsg),
      (∀ x ∈ msgs, x.seq ≠ m.searchSeq) →
      msgs.foldl (fun acc x => (handleSearchResult acc x).1) m = m) := by
  have h1 : ∀ (m : Model) (msg : SearchResultMsg), msg.seq ≠ m.searchSeq →
      handleSearchResult m msg = (m, none) := by
    intro m msg h
    simp only [handleSearchResult]
    rw [if_pos h]
  refine ⟨h1, ?_, ?_⟩
  · intro m msg hst
    by_contra h
    rw [h1 m msg h] at hst
    exact hst rfl
  · intro m msgs
    induction msgs with
    | nil => intro _; rfl
    | cons x rest ih =>
      intro hall
      have hx := hall x (by simp)
      simp only [List.foldl_cons]
      rw [h1 m x hx]
      exact ih fun y hy => hall y (by simp [hy])

/-- A search result with sequence number 5 (stale against the initial
model, whose `searchSeq` is 0). -/
def msgStale : SearchResultMsg := { seq := 5, locations := [stA], err := none }

/-- Witness for C3: the stale result is dropped on the initial model. -/
theorem c3_stale_search_witness :
    handleSearchResult initialModel msgStale = (initialModel, none) :=
  c3_stale_search.1 initialModel msgStale (by decide)

/-! ### C4 — stale board results -/

/-- C4: a `BoardResult` is dropped — model unchanged, no command — when
no station is selected or its EVA differs from the selected station's,
and any sequence of such mismatched board results leaves the model, in
particular its departures list, unchanged. -/
theorem c4_stale_board :
    (∀ (m : Model) (msg : DeparturesResultMsg) (now : Int),
      (∀ st, m.selectedStation = some st → msg.stationEVA ≠ st.eva) →
      handleDeparturesResult m msg now = (m, none)) ∧
    (∀ (m : Model) (msgs : List (DeparturesResultMsg × Int)),
      (∀ p ∈ msgs, ∀ st, m.selectedStation = some st →
        p.1.stationEVA ≠ st.eva) →
      msgs.foldl (fun acc p => (handleDeparturesResult acc p.1 p.2).1) m = m ∧
      (msgs.foldl (fun acc p => (handleDeparturesResult acc p.1 p.2).1)
          m).departures = m.departures) := by
  have h1 : ∀ (m : Model) (msg : DeparturesResultMsg) (now : Int),
      (∀ st, m.selectedStation = some st → msg.stationEVA ≠ st.eva) →
      handleDeparturesResult m msg now = (m, none) := by
    intro m msg now h
    cases hsel : m.selectedStation with
    | none => simp only [handleDeparturesResult, hsel]
    | some st =>
      have hne := h st hsel
      simp only [handleDeparturesResult, hsel]
      rw [if_pos hne]
  refine ⟨h1, ?_⟩
  intro m msgs
  induction msgs with
  | nil => intro _; exact ⟨rfl, rfl⟩
  | cons p rest ih =>
    intro hall
    have hp := hall p (by simp)
    simp only [List.foldl_cons]
    rw [h1 m p.1 p.2 hp]
    exact ih fun q hq => hall q (by simp [hq])

/-- Witness for C4: a board result arriving while no station is selected
is dropped. -/
theorem c4_stale_board_witness :
    handleDeparturesResult initialModel msgBoardX 3 = (initialModel, none) :=
  c4_stale_board.1 initialModel msgBoardX 3 fun _ h => Option.noConfusion h

/-! ### C10 — error board results are atomic -/

/-- C10: an accepted `BoardResult` carrying an error changes exactly
`departuresLoading` (cleared) and `departuresErr` (set); departures,
cursor, selected journey, journey view and `lastUpdate` all survive
untouched, and no command is emitted. -/
theorem c10_error_board_atomic :
    ∀ (m : Model) (msg : DeparturesResultMsg) (now : Int) (st : Location),
      m.selectedStation = some st → msg.stationEVA = st.eva →
      msg.err ≠ none →
      handleDeparturesResult m msg now =
        ({ m with departuresLoading := false, departuresErr := msg.err },
          none) := by
  intro m msg now st hsel heva herr
  simp only [handleDeparturesResult, hsel]
  rw [if_neg (not_not_intro heva), if_neg herr]

/-- An error board result for station EVA 1. -/
def msgBoardErr : DeparturesResultMsg :=
  { stationEVA := 1, departures := [], err := some "boom" }

/-- Witness for C10: applying the error result to the model with station
EVA 1 selected. -/
theorem c10_error_board_atomic_witness :
    handleDeparturesResult mBoard msgBoardErr 9 =
      ({ mBoard with
          departuresLoading := false
          departuresErr := msgBoardErr.err }, none) :=
  c10_error_board_atomic mBoard msgBoardErr 9 stA rfl rfl (by decide)

/-! ### C1 — journey results are applied without a journeyId check -/

/-- The journey `"jB"` used by the C1 counterexample. -/
def jB : Journey := { id := "jB", name := "", stops := [] }

/-- The initial model with journey `"jA"` selected. -/
def mC1 : Model := { initialModel with selectedJourneyID := "jA" }

/-- A successful journey result tagged with id `"jB"`. -/
def msgC1 : JourneyResultMsg :=
  { journeyID := "jB", journey := some jB, err := none }

/-- Counterexample for C1: a successful `JourneyResult` whose
`journeyId` differs from the model's `selectedJourneyId` is applied
anyway — afterwards `showJourney` is true while the installed journey's
id `"jB"` differs from `selectedJourneyId = "jA"`, refuting both the
only-applied-when-matching rule and the invariant
`showJourney = true ⇒ journey.id = selectedJourneyId`. -/
theorem c1_counterexample :
    msgC1.journeyID ≠ mC1.selectedJourneyID ∧
    (handleJourneyResult mC1 msgC1 0).1.showJourney = true ∧
    (handleJourneyResult mC1 msgC1 0).1.journey = some jB ∧
    (handleJourneyResult mC1 msgC1 0).1.selectedJourneyID = "jA" ∧
    jB.id ≠ "jA" := by
  decide

/-- C1 as amended: `handleJourneyResult` never consults the message's
`journeyId`; every successful `JourneyResult` is applied — the journey
is installed and `showJourney` set — while `selectedJourneyId` is left
unchanged, so `showJourney = true` guarantees only that `journey` is the
most recently applied message's journey, not that its id matches
`selectedJourneyId`. -/
theorem c1_journey_always_applied :
    ∀ (m : Model) (msg : JourneyResultMsg) (now : Int),
      msg.err = none →
      (handleJourneyResult m msg now).1.journey = msg.journey ∧
      (handleJourneyResult m msg now).1.showJourney = true ∧
      (handleJourneyResult m msg now).1.selectedJourneyID =
        m.selectedJourneyID := by
  intro m msg now herr
  simp only [handleJourneyResult, herr, if_pos]
  split_ifs <;> simp

/-- Witness for C1 as amended: the mismatched journey result applied to
`mC1`. -/
theorem c1_journey_always_applied_witness :
    (handleJourneyResult mC1 msgC1 0).1.journey = msgC1.journey ∧
    (handleJourneyResult mC1 msgC1 0).1.showJourney = true ∧
    (handleJourneyResult mC1 msgC1 0).1.selectedJourneyID =
      mC1.selectedJourneyID :=
  c1_journey_always_applied mC1 msgC1 0 rfl

/-! ### C5 — cursor continuity on board refresh -/

theorem findJourneyIdx_lt_length (id : String) :
    ∀ (l : List Departure) (i : Nat), findJourneyIdx id l = some i →
      i < l.length := by
  intro l
  induction l with
  | nil => intro i h; simp [findJourneyIdx] at h
  | cons d rest ih =>
    intro i h
    simp only [findJourneyIdx] at h
    split_ifs at h with hd
    · cases h
      simp
    · cases hf : findJourneyIdx id rest with
      | none => rw [hf] at h; simp at h
      | some j =>
        rw [hf] at h
        simp at h
        have := ih j hf
        simp
        omega

/-- Characterization of the success path of `handleDeparturesResult`:
with a matching station and a nil error the handler installs the
departures, relocates or closes the selected journey, applies the
shrink clamp, stamps `lastUpdate`, and emits no command. -/
theorem handleDeparturesResult_success (m : Model) (msg : DeparturesResultMsg)
    (now : Int) (st : Location) (hsel : m.selectedStation = some st)
    (heva : msg.stationEVA = st.eva) (herr : msg.err = none) :
    handleDeparturesResult m msg now =
      (let m2 : Model :=
        { m with departuresLoading := false, departuresErr := none,
                 departures := msg.departures }
       let m3 : Model :=
        if 0 < m.departures.length ∧ m.selectedJourneyID ≠ "" then
          match findJourneyIdx m.selectedJourneyID msg.departures with
          | some i => { m2 with departureCursor := (i : Int) }
          | none => { m2 with showJourney := false, journey := none,
                              selectedJourneyID := "" }
        else if ¬0 < m.departures.length then { m2 with departureCursor := 0 }
        else m2
       let m4 : Model :=
        if m3.departureCursor ≥ (m3.departures.length : Int) ∧
            0 < m3.departures.length then
          { m3 with departureCursor := (m3.departures.length : Int) - 1 }
        else m3
       ({ m4 with lastUpdate := now }, none)) := by
  simp only [handleDeparturesResult, hsel]
  rw [if_neg (not_not_intro heva), herr, if_pos rfl]

/-- A departure on journey `"j0"`. -/
def dep0 : Departure := { depX with journeyID := "j0" }

/-- A departure on journey `"j1"`. -/
def dep1 : Departure := { depX with journeyID := "j1" }

/-- A model showing a two-entry board with the cursor on index 1 and
journey `"jZ"` selected. -/
def mC5 : Model :=
  { initialModel with
    selectedStation := some stA
    departures := [dep0, dep1]
    departureCursor := 1
    selectedJourneyID := "jZ"
    showJourney := true }

/-- A successful board result for station EVA 1 whose departure list is
empty. -/
def msgEmptyBoard : DeparturesResultMsg :=
  { stationEVA := 1, departures := [], err := none }

/-- Counterexample for C5: when an accepted successful `BoardResult`
empties the board, the claim requires the cursor to be clamped to 0, but
the shrink clamp in `handleDeparturesResult` only fires on non-empty
lists — applied to a model with cursor 1, journey `"jZ"` selected and a
previously non-empty board, an empty result closes the journey view yet
leaves `departureCursor = 1`, not 0. -/
theorem c5_counterexample :
    0 < mC5.departures.length ∧ mC5.selectedJourneyID ≠ "" ∧
    mC5.selectedStation = some stA ∧ msgEmptyBoard.stationEVA = stA.eva ∧
    msgEmptyBoard.err = none ∧
    (handleDeparturesResult mC5 msgEmptyBoard 7).1.departures = [] ∧
    (handleDeparturesResult mC5 msgEmptyBoard 7).1.showJourney = false ∧
    (handleDeparturesResult mC5 msgEmptyBoard 7).1.departureCursor = 1 := by
  decide

/-- C5 as amended: for an accepted successful `BoardResult`, if the
previous board was non-empty and a journey is selected then the cursor
moves to the first index carrying the selected journey id, otherwise the
journey view is closed (`showJourney = false`, `journey = nil`,
`selectedJourneyId = ""`); if the previous board was empty the cursor is
set to 0; afterwards the cursor is clamped to `|departures| − 1` only
when it overflows a non-empty list — when the new list is empty the
cursor keeps its previous value instead of being reset to 0; for a
non-empty new list a previously non-negative cursor always ends in
`[0, |departures|)`. -/
theorem c5_cursor_continuity :
    ∀ (m : Model) (msg : DeparturesResultMsg) (now : Int) (st : Location),
      m.selectedStation = some st → msg.stationEVA = st.eva →
      msg.err = none →
      ((0 < m.departures.length ∧ m.selectedJourneyID ≠ "" →
        (∀ i, findJourneyIdx m.selectedJourneyID msg.departures = some i →
          (handleDeparturesResult m msg now).1.departureCursor = (i : Int)) ∧
        (findJourneyIdx m.selectedJourneyID msg.departures = none →
          (handleDeparturesResult m msg now).1.showJourney = false ∧
          (handleDeparturesResult m msg now).1.journey = none ∧
          (handleDeparturesResult m msg now).1.selectedJourneyID = "" ∧
          (handleDeparturesResult m msg now).1.departureCursor =
            (if m.departureCursor ≥ (msg.departures.length : Int) ∧
                0 < msg.departures.length then
              (msg.departures.length : Int) - 1
            else m.departureCursor))) ∧
      (m.departures.length = 0 →
        (handleDeparturesResult m msg now).1.departureCursor = 0) ∧
      (0 ≤ m.departureCursor → 0 < msg.departures.length →
        0 ≤ (handleDeparturesResult m msg now).1.departureCursor ∧
        (handleDeparturesResult m msg now).1.departureCursor <
          (msg.departures.length : Int))) := by
  intro m msg now st hsel heva herr
  rw [handleDeparturesResult_success m msg now st hsel heva herr]
  refine ⟨?_, ?_, ?_⟩
  · intro hcond
    constructor
    · intro i hfind
      have hlt :=
        findJourneyIdx_lt_length m.selectedJourneyID msg.departures i hfind
      simp only [if_pos hcond, hfind]
      split_ifs with h4 <;> simp_all <;> omega
    · intro hfind
      simp only [if_pos hcond, hfind]
      split_ifs with h4 <;> simp_all
  · intro hzero
    have hA : ¬(0 < m.departures.length ∧ m.selectedJourneyID ≠ "") := by
      simp [hzero]
    have hB : ¬0 < m.departures.length := by omega
    simp only [if_neg hA, if_pos hB]
    split_ifs with h4
    · rcases h4 with ⟨ha, hb⟩
      simp_all
    · simp_all
  · intro hc0 hlen
    by_cases hcond : 0 < m.departures.length ∧ m.selectedJourneyID ≠ ""
    · cases hfind : findJourneyIdx m.selectedJourneyID msg.departures with
      | some i =>
        have hlt :=
          findJourneyIdx_lt_length m.selectedJourneyID msg.departures i hfind
        simp only [if_pos hcond, hfind]
        split_ifs with h4 <;> simp_all <;> omega
      | none =>
        simp only [if_pos hcond, hfind]
        split_ifs with h4 <;> simp_all <;> omega
    · simp only [if_neg hcond]
      split_ifs with h1 h4 h4 <;> (try rcases h4 with ⟨ha, hb⟩) <;>
        simp_all <;> omega

/-- Witness for C5 as amended: refreshing the two-entry board of `mC5`
with the one-entry board `msgBoardX` leaves the cursor inside the new
bounds. -/
theorem c5_cursor_continuity_witness :
    0 ≤ (handleDeparturesResult mC5 msgBoardX 7).1.departureCursor ∧
    (handleDeparturesResult mC5 msgBoardX 7).1.departureCursor <
      (msgBoardX.departures.length : Int) :=
  (c5_cursor_continuity mC5 msgBoardX 7 stA rfl rfl rfl).2.2 (by decide)
    (by decide)

end Moko
